import Mathlib

/-!
Verification of the bg-remover repository: a browser app that loads a
pretrained background-matting model, runs it on an uploaded image, and
composites the predicted alpha matte with the source image into two PNG
artifacts (a grayscale mask and an alpha-composited cut-out).

The development shallowly embeds the two source files:
  * the model wrapper module (`initializeModel`, `processImage` with its
    two pixel-copy loops and filename derivation), and
  * the UI component `App` (mount effect, upload handler, click handler).
External collaborators (model runtime, canvas, PNG encoder, decoder) are
parametrized as an explicit environment.
-/

/-- The fixed model identifier hard-coded in the wrapper module. -/
def MODEL_ID : String := "briaai/RMBG-1.4"

/-- A browser `File`: a name, byte content, and a MIME type. -/
structure JsFile where
  name : String
  content : List Nat
  mime : String
deriving DecidableEq, Repr

/-- A decoded bitmap (`RawImage`): width, height, and RGBA pixel data,
row-major, four bytes per pixel. -/
structure RawImg where
  width : Nat
  height : Nat
  data : Array Nat
deriving DecidableEq, Repr

/-- The module-level `ModelState`: optional model handle, optional
processor handle, and the current model identifier. Handles are opaque
and modelled as naturals. -/
structure ModelState where
  model : Option Nat
  processor : Option Nat
  currentModelId : String
deriving DecidableEq, Repr

/-- A value thrown by JavaScript code: either an `Error` object carrying a
message, or any other value. -/
inductive JsThrown where
  | errObj (msg : String)
  | other
deriving DecidableEq, Repr

/-- JavaScript `String.prototype.split` with a single-character separator,
over the character list of the string: always returns a non-empty list of
fields, with an empty field for each leading/trailing/doubled separator. -/
def jsSplit (sep : Char) : List Char → List (List Char)
  | [] => [[]]
  | c :: cs =>
    let r := jsSplit sep cs
    if c = sep then [] :: r
    else (c :: r.headD []) :: r.tail

/-- The basename used for both artifact names: `image.name.split(".")[0]`. -/
def basenameOf (name : String) : List Char :=
  (jsSplit '.' name.data).headD []

/-- The mask artifact's filename from the source:
`${image.name.split(".")[0]}-mask.png`. -/
def maskFileName (name : String) : String :=
  ⟨basenameOf name ++ "-mask.png".data⟩

/-- The composite artifact's filename from the source:
`${fileName}-bg-blasted.png` where `[fileName] = image.name.split(".")`. -/
def processedFileName (name : String) : String :=
  ⟨basenameOf name ++ "-bg-blasted.png".data⟩

/-- Modelled from the spec's wording for comparison: the source filename
truncated at its first '.' character. -/
def specBasename (name : String) : List Char :=
  name.data.takeWhile (fun c => c != '.')

theorem jsSplit_headD (l : List Char) :
    (jsSplit '.' l).headD [] = l.takeWhile (fun c => c != '.') := by
  induction l with
  | nil => rfl
  | cons c cs ih =>
    by_cases h : c = '.'
    · subst h
      simp [jsSplit, List.takeWhile_cons]
    · simp only [jsSplit, if_neg h, List.takeWhile_cons]
      have hb : (c != '.') = true := by
        simp [bne_iff_ne, h]
      rw [hb]
      simp only [if_true, List.headD_cons, List.headD]
      rw [← ih]
      simp [List.headD]

/-- C5: for every source filename, the mask artifact is named
`basename ++ "-mask.png"` and the composite `basename ++ "-bg-blasted.png"`,
where the basename is the filename truncated at its first '.'; in
particular "cat.png" yields "cat-mask.png" / "cat-bg-blasted.png" and
"my.cat.png" yields "my-mask.png". -/
theorem filenames_truncate_at_first_dot (name : String) :
    maskFileName name = ⟨specBasename name ++ "-mask.png".data⟩ ∧
    processedFileName name = ⟨specBasename name ++ "-bg-blasted.png".data⟩ ∧
    maskFileName "cat.png" = "cat-mask.png" ∧
    processedFileName "cat.png" = "cat-bg-blasted.png" ∧
    maskFileName "my.cat.png" = "my-mask.png" := by
  refine ⟨?_, ?_, by decide, by decide, by decide⟩
  · exact congrArg (fun l => (⟨l ++ "-mask.png".data⟩ : String)) (jsSplit_headD name.data)
  · exact congrArg (fun l => (⟨l ++ "-bg-blasted.png".data⟩ : String)) (jsSplit_headD name.data)

/-- The mask-canvas loop from `processImage`: for each `i` below the
buffer's length, write `buffer[i]` to bytes `4*i`, `4*i+1`, `4*i+2` and
255 to byte `4*i+3` of the image data. Out-of-range writes on a
`Uint8ClampedArray` are silently dropped, which `Array.setD` models. -/
def maskLoop (md : List Nat) (i : Nat) (arr : Array Nat) : Array Nat :=
  if h : i < md.length then
    maskLoop md (i + 1)
      ((((arr.setD (4 * i) (md.get ⟨i, h⟩)).setD (4 * i + 1) (md.get ⟨i, h⟩)).setD
          (4 * i + 2) (md.get ⟨i, h⟩)).setD (4 * i + 3) 255)
  else arr
termination_by md.length - i

/-- The composite-canvas loop from `processImage`: for each `i` below the
buffer's length, overwrite byte `4*i+3` (the alpha channel) with
`buffer[i]`. -/
def alphaLoop (md : List Nat) (i : Nat) (arr : Array Nat) : Array Nat :=
  if h : i < md.length then
    alphaLoop md (i + 1) (arr.setD (4 * i + 3) (md.get ⟨i, h⟩))
  else arr
termination_by md.length - i

/-- Bounds-checked variant of `maskLoop`: fails with `none` if any write
of an iteration would fall outside the array. -/
def maskLoopChecked (md : List Nat) (i : Nat) (arr : Array Nat) : Option (Array Nat) :=
  if h : i < md.length then
    if 4 * i + 3 < arr.size then
      maskLoopChecked md (i + 1)
        ((((arr.setD (4 * i) (md.get ⟨i, h⟩)).setD (4 * i + 1) (md.get ⟨i, h⟩)).setD
            (4 * i + 2) (md.get ⟨i, h⟩)).setD (4 * i + 3) 255)
    else none
  else some arr
termination_by md.length - i

/-- Bounds-checked variant of `alphaLoop`: fails with `none` if a write
would fall outside the array. -/
def alphaLoopChecked (md : List Nat) (i : Nat) (arr : Array Nat) : Option (Array Nat) :=
  if h : i < md.length then
    if 4 * i + 3 < arr.size then
      alphaLoopChecked md (i + 1) (arr.setD (4 * i + 3) (md.get ⟨i, h⟩))
    else none
  else some arr
termination_by md.length - i

/-- The mask image data built by `processImage`: a zero-initialized
`createImageData(width, height)` canvas buffer of `4*width*height` bytes,
then the mask loop. -/
def mkMaskData (img : RawImg) (md : List Nat) : Array Nat :=
  maskLoop md 0 (Array.mkArray (4 * (img.width * img.height)) 0)

/-- The composite image data built by `processImage`: the source bitmap's
pixels as drawn onto the canvas (`drawImage` then `getImageData`), then
the alpha loop. -/
def mkCompositeData (img : RawImg) (md : List Nat) : Array Nat :=
  alphaLoop md 0 img.data

theorem getD_setD_ne (a : Array Nat) (i j : Nat) (v d : Nat) (hne : j ≠ i) :
    (a.setD i v).getD j d = a.getD j d := by
  unfold Array.setD
  split
  · simp only [Array.getD_eq_get?]
    rw [Array.getElem?_set_ne]
    exact fun h => hne h.symm
  · rfl

theorem getD_setD_eq (a : Array Nat) (i : Nat) (v d : Nat) (h : i < a.size) :
    (a.setD i v).getD i d = v := by
  simp only [Array.getD_eq_get?, Array.getElem?_setD_eq a h v, Option.getD_some]


theorem maskLoop_size_fuel (md : List Nat) :
    ∀ n i arr, md.length - i ≤ n → (maskLoop md i arr).size = arr.size := by
  intro n
  induction n with
  | zero =>
    intro i arr hle
    unfold maskLoop
    rw [dif_neg (by omega)]
  | succ n ih =>
    intro i arr hle
    unfold maskLoop
    by_cases h : i < md.length
    · rw [dif_pos h, ih (i + 1) _ (by omega)]
      simp [Array.size_setD]
    · rw [dif_neg h]

theorem maskLoop_size (md : List Nat) (i : Nat) (arr : Array Nat) :
    (maskLoop md i arr).size = arr.size :=
  maskLoop_size_fuel md md.length i arr (by omega)

theorem alphaLoop_size_fuel (md : List Nat) :
    ∀ n i arr, md.length - i ≤ n → (alphaLoop md i arr).size = arr.size := by
  intro n
  induction n with
  | zero =>
    intro i arr hle
    unfold alphaLoop
    rw [dif_neg (by omega)]
  | succ n ih =>
    intro i arr hle
    unfold alphaLoop
    by_cases h : i < md.length
    · rw [dif_pos h, ih (i + 1) _ (by omega)]
      simp [Array.size_setD]
    · rw [dif_neg h]

theorem alphaLoop_size (md : List Nat) (i : Nat) (arr : Array Nat) :
    (alphaLoop md i arr).size = arr.size :=
  alphaLoop_size_fuel md md.length i arr (by omega)

theorem maskLoop_frame_fuel (md : List Nat) :
    ∀ n i arr j, md.length - i ≤ n → j < 4 * i →
      (maskLoop md i arr).getD j 0 = arr.getD j 0 := by
  intro n
  induction n with
  | zero =>
    intro i arr j hle hj
    unfold maskLoop
    rw [dif_neg (by omega)]
  | succ n ih =>
    intro i arr j hle hj
    unfold maskLoop
    by_cases h : i < md.length
    · rw [dif_pos h, ih (i + 1) _ j (by omega) (by omega)]
      rw [getD_setD_ne _ _ _ _ _ (by omega), getD_setD_ne _ _ _ _ _ (by omega),
        getD_setD_ne _ _ _ _ _ (by omega), getD_setD_ne _ _ _ _ _ (by omega)]
    · rw [dif_neg h]

theorem maskLoop_frame (md : List Nat) (i : Nat) (arr : Array Nat) (j : Nat) (hj : j < 4 * i) :
    (maskLoop md i arr).getD j 0 = arr.getD j 0 :=
  maskLoop_frame_fuel md md.length i arr j (by omega) hj

theorem maskLoop_write_fuel (md : List Nat) :
    ∀ n i arr, md.length - i ≤ n → arr.size = 4 * md.length →
      ∀ k, i ≤ k → (hk : k < md.length) →
        (maskLoop md i arr).getD (4 * k) 0 = md.get ⟨k, hk⟩ ∧
        (maskLoop md i arr).getD (4 * k + 1) 0 = md.get ⟨k, hk⟩ ∧
        (maskLoop md i arr).getD (4 * k + 2) 0 = md.get ⟨k, hk⟩ ∧
        (maskLoop md i arr).getD (4 * k + 3) 0 = 255 := by
  intro n
  induction n with
  | zero =>
    intro i arr hle hsz k hik hk
    omega
  | succ n ih =>
    intro i arr hle hsz k hik hk
    have h : i < md.length := by omega
    by_cases hki : k = i
    · subst hki
      unfold maskLoop
      rw [dif_pos h]
      have hs0 : (arr.setD (4 * k) (md.get ⟨k, h⟩)).size = arr.size := by
        simp [Array.size_setD]
      have hs1 : ((arr.setD (4 * k) (md.get ⟨k, h⟩)).setD (4 * k + 1)
          (md.get ⟨k, h⟩)).size = arr.size := by
        simp [Array.size_setD]
      have hs2 : (((arr.setD (4 * k) (md.get ⟨k, h⟩)).setD (4 * k + 1)
          (md.get ⟨k, h⟩)).setD (4 * k + 2) (md.get ⟨k, h⟩)).size = arr.size := by
        simp [Array.size_setD]
      refine ⟨?_, ?_, ?_, ?_⟩
      · rw [maskLoop_frame _ _ _ _ (by omega)]
        rw [getD_setD_ne _ _ _ _ _ (by omega), getD_setD_ne _ _ _ _ _ (by omega),
          getD_setD_ne _ _ _ _ _ (by omega), getD_setD_eq _ _ _ _ (by omega)]
      · rw [maskLoop_frame _ _ _ _ (by omega)]
        rw [getD_setD_ne _ _ _ _ _ (by omega), getD_setD_ne _ _ _ _ _ (by omega),
          getD_setD_eq _ _ _ _ (by rw [hs0]; omega)]
      · rw [maskLoop_frame _ _ _ _ (by omega)]
        rw [getD_setD_ne _ _ _ _ _ (by omega), getD_setD_eq _ _ _ _ (by rw [hs1]; omega)]
      · rw [maskLoop_frame _ _ _ _ (by omega)]
        rw [getD_setD_eq _ _ _ _ (by rw [hs2]; omega)]
    · have step : maskLoop md i arr = maskLoop md (i + 1)
          ((((arr.setD (4 * i) (md.get ⟨i, h⟩)).setD (4 * i + 1) (md.get ⟨i, h⟩)).setD
              (4 * i + 2) (md.get ⟨i, h⟩)).setD (4 * i + 3) 255) := by
        conv_lhs => unfold maskLoop
        rw [dif_pos h]
      rw [step]
      exact ih (i + 1) _ (by omega) (by simp [Array.size_setD, hsz]) k (by omega) hk

theorem maskLoop_write (md : List Nat) (arr : Array Nat) (hsz : arr.size = 4 * md.length)
    (k : Nat) (hk : k < md.length) :
    (maskLoop md 0 arr).getD (4 * k) 0 = md.get ⟨k, hk⟩ ∧
    (maskLoop md 0 arr).getD (4 * k + 1) 0 = md.get ⟨k, hk⟩ ∧
    (maskLoop md 0 arr).getD (4 * k + 2) 0 = md.get ⟨k, hk⟩ ∧
    (maskLoop md 0 arr).getD (4 * k + 3) 0 = 255 :=
  maskLoop_write_fuel md md.length 0 arr (by omega) hsz k (Nat.zero_le k) hk

theorem alphaLoop_frame_fuel (md : List Nat) :
    ∀ n i arr j, md.length - i ≤ n → (j % 4 ≠ 3 ∨ j < 4 * i) →
      (alphaLoop md i arr).getD j 0 = arr.getD j 0 := by
  intro n
  induction n with
  | zero =>
    intro i arr j hle hj
    unfold alphaLoop
    rw [dif_neg (by omega)]
  | succ n ih =>
    intro i arr j hle hj
    unfold alphaLoop
    by_cases h : i < md.length
    · have hne : j ≠ 4 * i + 3 := by
        rcases hj with hj | hj
        · intro he
          apply hj
          omega
        · omega
      rw [dif_pos h, ih (i + 1) _ j (by omega) (by rcases hj with hj | hj; exact Or.inl hj; exact Or.inr (by omega))]
      rw [getD_setD_ne _ _ _ _ _ hne]
    · rw [dif_neg h]

theorem alphaLoop_frame (md : List Nat) (arr : Array Nat) (j : Nat) (hj : j % 4 ≠ 3) :
    (alphaLoop md 0 arr).getD j 0 = arr.getD j 0 :=
  alphaLoop_frame_fuel md md.length 0 arr j (by omega) (Or.inl hj)

theorem alphaLoop_write_fuel (md : List Nat) :
    ∀ n i arr, md.length - i ≤ n → arr.size = 4 * md.length →
      ∀ k, i ≤ k → (hk : k < md.length) →
        (alphaLoop md i arr).getD (4 * k + 3) 0 = md.get ⟨k, hk⟩ := by
  intro n
  induction n with
  | zero =>
    intro i arr hle hsz k hik hk
    omega
  | succ n ih =>
    intro i arr hle hsz k hik hk
    have h : i < md.length := by omega
    by_cases hki : k = i
    · subst hki
      unfold alphaLoop
      rw [dif_pos h]
      rw [alphaLoop_frame_fuel md md.length _ _ _ (by omega) (Or.inr (by omega))]
      rw [getD_setD_eq _ _ _ _ (by omega)]
    · have step : alphaLoop md i arr =
          alphaLoop md (i + 1) (arr.setD (4 * i + 3) (md.get ⟨i, h⟩)) := by
        conv_lhs => unfold alphaLoop
        rw [dif_pos h]
      rw [step]
      exact ih (i + 1) _ (by omega) (by simp [Array.size_setD, hsz]) k (by omega) hk

theorem alphaLoop_write (md : List Nat) (arr : Array Nat) (hsz : arr.size = 4 * md.length)
    (k : Nat) (hk : k < md.length) :
    (alphaLoop md 0 arr).getD (4 * k + 3) 0 = md.get ⟨k, hk⟩ :=
  alphaLoop_write_fuel md md.length 0 arr (by omega) hsz k (Nat.zero_le k) hk

/-- C1: for a source bitmap of width W and height H and a pixel buffer of
length W*H, the mask image data has exactly W*H pixels (4*W*H bytes), and
for every pixel index i its red, green, and blue bytes equal `buffer[i]`
and its alpha byte equals 255. -/
theorem mask_image_correct (img : RawImg) (md : List Nat)
    (hmd : md.length = img.width * img.height) :
    (mkMaskData img md).size = 4 * (img.width * img.height) ∧
    ∀ i, (hi : i < md.length) →
      (mkMaskData img md).getD (4 * i) 0 = md.get ⟨i, hi⟩ ∧
      (mkMaskData img md).getD (4 * i + 1) 0 = md.get ⟨i, hi⟩ ∧
      (mkMaskData img md).getD (4 * i + 2) 0 = md.get ⟨i, hi⟩ ∧
      (mkMaskData img md).getD (4 * i + 3) 0 = 255 := by
  constructor
  · rw [mkMaskData, maskLoop_size, Array.size_mkArray]
  · intro i hi
    exact maskLoop_write md _ (by rw [Array.size_mkArray, hmd]) i hi

theorem mask_image_correct_witness :
    (mkMaskData ⟨1, 1, #[9, 9, 9, 9]⟩ [7]).size = 4 ∧
    (mkMaskData ⟨1, 1, #[9, 9, 9, 9]⟩ [7]).getD 0 0 = 7 ∧
    (mkMaskData ⟨1, 1, #[9, 9, 9, 9]⟩ [7]).getD 3 0 = 255 := by
  have h := mask_image_correct ⟨1, 1, #[9, 9, 9, 9]⟩ [7] (by decide)
  refine ⟨h.1, ?_, ?_⟩
  · exact (h.2 0 (by decide)).1
  · exact (h.2 0 (by decide)).2.2.2

/-- C2: for a source bitmap whose RGBA data has 4*W*H bytes and a pixel
buffer of length W*H, the composite image data keeps the source's size,
leaves every byte that is not an alpha byte (index not congruent to 3 mod
4) equal to the source's, and sets every pixel's alpha byte to
`buffer[i]`. -/
theorem composite_image_correct (img : RawImg) (md : List Nat)
    (hmd : md.length = img.width * img.height)
    (hdata : img.data.size = 4 * (img.width * img.height)) :
    (mkCompositeData img md).size = img.data.size ∧
    (∀ j, j % 4 ≠ 3 → (mkCompositeData img md).getD j 0 = img.data.getD j 0) ∧
    ∀ i, (hi : i < md.length) →
      (mkCompositeData img md).getD (4 * i + 3) 0 = md.get ⟨i, hi⟩ := by
  refine ⟨?_, ?_, ?_⟩
  · rw [mkCompositeData, alphaLoop_size]
  · intro j hj
    exact alphaLoop_frame md img.data j hj
  · intro i hi
    exact alphaLoop_write md img.data (by rw [hdata, hmd]) i hi

theorem composite_image_correct_witness :
    (mkCompositeData ⟨1, 1, #[10, 20, 30, 40]⟩ [7]).size = 4 ∧
    (mkCompositeData ⟨1, 1, #[10, 20, 30, 40]⟩ [7]).getD 0 0 = 10 ∧
    (mkCompositeData ⟨1, 1, #[10, 20, 30, 40]⟩ [7]).getD 3 0 = 7 := by
  have h := composite_image_correct ⟨1, 1, #[10, 20, 30, 40]⟩ [7] (by decide) (by decide)
  refine ⟨h.1, ?_, ?_⟩
  · exact h.2.1 0 (by decide)
  · exact h.2.2 0 (by decide)

theorem maskLoopChecked_fuel (md : List Nat) :
    ∀ n i arr, md.length - i ≤ n → arr.size = 4 * md.length →
      maskLoopChecked md i arr = some (maskLoop md i arr) := by
  intro n
  induction n with
  | zero =>
    intro i arr hle hsz
    unfold maskLoopChecked maskLoop
    rw [dif_neg (by omega), dif_neg (by omega)]
  | succ n ih =>
    intro i arr hle hsz
    by_cases h : i < md.length
    · have hb : 4 * i + 3 < arr.size := by omega
      conv_lhs => unfold maskLoopChecked
      conv_rhs => unfold maskLoop
      rw [dif_pos h, dif_pos h, if_pos hb]
      exact ih (i + 1) _ (by omega) (by simp [Array.size_setD, hsz])
    · unfold maskLoopChecked maskLoop
      rw [dif_neg h, dif_neg h]

theorem alphaLoopChecked_fuel (md : List Nat) :
    ∀ n i arr, md.length - i ≤ n → arr.size = 4 * md.length →
      alphaLoopChecked md i arr = some (alphaLoop md i arr) := by
  intro n
  induction n with
  | zero =>
    intro i arr hle hsz
    unfold alphaLoopChecked alphaLoop
    rw [dif_neg (by omega), dif_neg (by omega)]
  | succ n ih =>
    intro i arr hle hsz
    by_cases h : i < md.length
    · have hb : 4 * i + 3 < arr.size := by omega
      conv_lhs => unfold alphaLoopChecked
      conv_rhs => unfold alphaLoop
      rw [dif_pos h, dif_pos h, if_pos hb]
      exact ih (i + 1) _ (by omega) (by simp [Array.size_setD, hsz])
    · unfold alphaLoopChecked alphaLoop
      rw [dif_neg h, dif_neg h]

/-- C9: with a buffer of length W*H, both pixel-copy loops run on the
4*W*H-byte image data stay entirely in bounds: bounds-checked variants of
the two loops, which fail with `none` on the first out-of-range write,
succeed and compute exactly the unchecked results. -/
theorem loops_stay_in_bounds (img : RawImg) (md : List Nat)
    (hmd : md.length = img.width * img.height)
    (hdata : img.data.size = 4 * (img.width * img.height)) :
    maskLoopChecked md 0 (Array.mkArray (4 * (img.width * img.height)) 0) =
      some (mkMaskData img md) ∧
    alphaLoopChecked md 0 img.data = some (mkCompositeData img md) := by
  constructor
  · exact maskLoopChecked_fuel md md.length 0 _ (by omega)
      (by rw [Array.size_mkArray, hmd])
  · exact alphaLoopChecked_fuel md md.length 0 _ (by omega) (by rw [hdata, hmd])

theorem loops_stay_in_bounds_witness :
    maskLoopChecked [7] 0 (Array.mkArray 4 0) =
      some (mkMaskData ⟨1, 1, #[10, 20, 30, 40]⟩ [7]) ∧
    alphaLoopChecked [7] 0 #[10, 20, 30, 40] =
      some (mkCompositeData ⟨1, 1, #[10, 20, 30, 40]⟩ [7]) :=
  loops_stay_in_bounds ⟨1, 1, #[10, 20, 30, 40]⟩ [7] (by decide) (by decide)

/-- The external collaborators of `processImage`, parametrized: bitmap
decoding, the processor/model/resize inference pipeline (given the model
and processor handles, yielding the resized 0-255 pixel buffer), canvas
2d-context availability, and the PNG encoder (`toBlob`, which may fail
with a null blob, hence `Option`). -/
structure Env where
  decode : JsFile → RawImg
  infer : Nat → Nat → RawImg → List Nat
  ctxAvailable : Bool
  encode : Nat → Nat → Array Nat → Option (List Nat)

/-- The successful result of `processImage`: both artifacts. -/
structure ProcResult where
  maskFile : JsFile
  processedFile : JsFile
deriving DecidableEq, Repr

/-- The canvas compositing steps inside `processImage`'s try block: build
the mask canvas and encode it, then build the composite canvas and encode
it. Each context acquisition and each encoding may fail by throwing, here
an `Except.error` carrying the thrown message. -/
def compositeStep (env : Env) (img : RawImg) (md : List Nat) (name : String) :
    Except String (JsFile × JsFile) :=
  if env.ctxAvailable then
    match env.encode img.width img.height (mkMaskData img md) with
    | none => .error "Failed to create blob"
    | some maskBytes =>
      let maskFile : JsFile := ⟨maskFileName name, maskBytes, "image/png"⟩
      if env.ctxAvailable then
        match env.encode img.width img.height (mkCompositeData img md) with
        | none => .error "Failed to create blob"
        | some bytes =>
          .ok (maskFile, ⟨processedFileName name, bytes, "image/png"⟩)
      else .error "Could not get 2d context"
  else .error "Could not get 2d context"

/-- `processImage`: throws `NotInitializedError` when the model or
processor handle is unset; otherwise decodes the file, runs inference to
obtain the pixel buffer, and performs the compositing steps, with every
failure inside the try block caught and rethrown as the single wrapped
message "Failed to process image". -/
def processImage (env : Env) (st : ModelState) (file : JsFile) :
    Except String ProcResult :=
  match st.model, st.processor with
  | some m, some p =>
    let img := env.decode file
    match compositeStep env img (env.infer m p img) file.name with
    | .ok (mf, pf) => .ok ⟨mf, pf⟩
    | .error _ => .error "Failed to process image"
  | _, _ => .error "Model not initialized. Call initializeModel() first."

/-- The outcome of `initializeModel`: the returned value or thrown
message, the module state afterwards, and how many times each of the two
loading calls was made. -/
structure InitOutcome where
  result : Except String Bool
  state : ModelState
  modelCalls : Nat
  procCalls : Nat
deriving Repr

/-- The message a caught non-`Error` throw is replaced with. -/
def fallbackInitMsg : String := "Failed to initialize background removal model"

/-- `initializeModel`, parametrized by the outcomes of the two external
loading calls (`AutoModel.from_pretrained` and
`AutoProcessor.from_pretrained`): assigns `state.model`, then
`state.processor`, then `state.currentModelId`, returning `true`; a throw
from either load is caught and rethrown as an `Error` carrying the
cause's message when the cause is an `Error`, else a fixed message. -/
def initializeModel (lm : Except JsThrown Nat) (lp : Except JsThrown Nat)
    (st : ModelState) : InitOutcome :=
  match lm with
  | .error e =>
    { result := .error (match e with | .errObj msg => msg | .other => fallbackInitMsg)
      state := st
      modelCalls := 1
      procCalls := 0 }
  | .ok m =>
    match lp with
    | .error e =>
      { result := .error (match e with | .errObj msg => msg | .other => fallbackInitMsg)
        state := { st with model := some m }
        modelCalls := 1
        procCalls := 1 }
    | .ok p =>
      { result := .ok true
        state := { model := some m, processor := some p, currentModelId := MODEL_ID }
        modelCalls := 1
        procCalls := 1 }

/-- The image record held by the `App` component. -/
structure ImageRecord where
  id : Nat
  file : JsFile
  maskFile : Option JsFile
  processedFile : Option JsFile
deriving DecidableEq, Repr

/-- The `App` component's state: the loading flag and the optional image
record. -/
structure AppState where
  isLoading : Bool
  image : Option ImageRecord
deriving DecidableEq, Repr

/-- The mount effect of `App`: await `initializeModel` (its outcome
parametrized), throw when it returned `false`, catch and log any throw,
and in every case clear the loading flag. Returns the new state and the
list of logged errors. -/
def mountEffect (outcome : Except JsThrown Bool) (s : AppState) :
    AppState × List JsThrown :=
  match outcome with
  | .ok true => ({ s with isLoading := false }, [])
  | .ok false => ({ s with isLoading := false }, [.errObj fallbackInitMsg])
  | .error e => ({ s with isLoading := false }, [e])

/-- The `handleImageUpload` handler: when the change event carries a
non-empty file list, replace the record with a fresh one (new id, the
selected file, no mask, no processed file); otherwise leave the state
untouched. -/
def handleImageUpload (files : Option (List JsFile)) (now : Nat)
    (cur : Option ImageRecord) : Option ImageRecord :=
  match files with
  | some (f :: _) => some { id := now, file := f, maskFile := none, processedFile := none }
  | _ => cur

/-- The `handleClick` handler: run `processImage` on the record's file;
on success store both artifacts in the record with one update; on a throw
log the error and leave the record unchanged. Returns the new record and
the list of logged errors. -/
def handleClick (env : Env) (st : ModelState) (img : ImageRecord) :
    ImageRecord × List String :=
  match processImage env st img.file with
  | .ok r => ({ img with maskFile := some r.maskFile, processedFile := some r.processedFile }, [])
  | .error e => (img, [e])

/-- C3: a call to `processImage` either fails as a whole or returns both
artifacts, and the controller's record is updated with mask and composite
together in the single success update, or not at all. -/
theorem processing_all_or_nothing (env : Env) (st : ModelState) (img : ImageRecord) :
    (∃ r : ProcResult, processImage env st img.file = .ok r ∧
      handleClick env st img =
        ({ img with maskFile := some r.maskFile, processedFile := some r.processedFile }, [])) ∨
    (∃ e, processImage env st img.file = .error e ∧
      handleClick env st img = (img, [e])) := by
  cases h : processImage env st img.file with
  | ok r =>
    left
    exact ⟨r, rfl, by simp [handleClick, h]⟩
  | error e =>
    right
    exact ⟨e, rfl, by simp [handleClick, h]⟩

/-- C4: when the model or processor handle is unset, `processImage` fails
with the not-initialized error for every environment, so no decoding,
inference, or compositing result can influence or escape the call. -/
theorem run_before_init_fails (env : Env) (st : ModelState) (f : JsFile)
    (h : st.model = none ∨ st.processor = none) :
    processImage env st f =
      .error "Model not initialized. Call initializeModel() first." := by
  cases hm : st.model with
  | none => simp [processImage, hm]
  | some m =>
    cases hp : st.processor with
    | none => simp [processImage, hm, hp]
    | some p =>
      rcases h with h | h
      · rw [hm] at h
        exact absurd h (by simp)
      · rw [hp] at h
        exact absurd h (by simp)

theorem run_before_init_fails_witness :
    processImage
      ⟨fun _ => ⟨1, 1, #[0, 0, 0, 0]⟩, fun _ _ _ => [0], true, fun _ _ _ => some []⟩
      ⟨none, none, MODEL_ID⟩ ⟨"cat.png", [], "image/png"⟩ =
      .error "Model not initialized. Call initializeModel() first." :=
  run_before_init_fails _ _ _ (Or.inl rfl)

/-- C6: `initializeModel` returns `true` exactly when both the model and
the processor load; it never returns `false`; when a load throws an
`Error`, the surfaced error carries the underlying cause's message; and
each of the two loading calls is made at most once (no retry). -/
theorem initializeModel_reports_loading (lm lp : Except JsThrown Nat) (st : ModelState) :
    ((initializeModel lm lp st).result = .ok true ↔
      (∃ m, lm = .ok m) ∧ ∃ p, lp = .ok p) ∧
    (∀ b, (initializeModel lm lp st).result = .ok b → b = true) ∧
    (∀ msg, lm = .error (.errObj msg) →
      (initializeModel lm lp st).result = .error msg) ∧
    (∀ m msg, lm = .ok m → lp = .error (.errObj msg) →
      (initializeModel lm lp st).result = .error msg) ∧
    ((initializeModel lm lp st).result = .ok true →
      (initializeModel lm lp st).state.model.isSome ∧
      (initializeModel lm lp st).state.processor.isSome) ∧
    (initializeModel lm lp st).modelCalls ≤ 1 ∧
    (initializeModel lm lp st).procCalls ≤ 1 := by
  cases lm with
  | error e => cases e <;> simp [initializeModel]
  | ok m =>
    cases lp with
    | error e => cases e <;> simp [initializeModel]
    | ok p => simp [initializeModel]

theorem initializeModel_reports_loading_witness :
    (initializeModel (.error (.errObj "boom")) (.ok 2)
      ⟨none, none, MODEL_ID⟩).result = .error "boom" :=
  (initializeModel_reports_loading (.error (.errObj "boom")) (.ok 2)
      ⟨none, none, MODEL_ID⟩).2.2.1 "boom" rfl

/-- C7: on mount the controller clears the loading flag whether
initialization succeeded, returned false, or threw (a throw is only
logged), leaving the image record untouched; on the user trigger, the
record acquires both artifacts on success and is left unchanged on
failure with the error only logged. -/
theorem ui_state_machine (outcome : Except JsThrown Bool) (s : AppState)
    (env : Env) (st : ModelState) (img : ImageRecord) :
    ((mountEffect outcome s).1.isLoading = false ∧
     (mountEffect outcome s).1.image = s.image ∧
     (∀ e, outcome = .error e → (mountEffect outcome s).2 = [e])) ∧
    (∀ r, processImage env st img.file = .ok r →
      handleClick env st img =
        ({ img with maskFile := some r.maskFile, processedFile := some r.processedFile }, [])) ∧
    (∀ e, processImage env st img.file = .error e →
      handleClick env st img = (img, [e])) := by
  refine ⟨⟨?_, ?_, ?_⟩, ?_, ?_⟩
  · cases outcome with
    | ok b => cases b <;> rfl
    | error e => rfl
  · cases outcome with
    | ok b => cases b <;> rfl
    | error e => rfl
  · intro e he
    subst he
    rfl
  · intro r hr
    simp [handleClick, hr]
  · intro e he
    simp [handleClick, he]

theorem ui_state_machine_witness :
    handleClick
      ⟨fun _ => ⟨1, 1, #[0, 0, 0, 0]⟩, fun _ _ _ => [0], true, fun _ _ _ => some []⟩
      ⟨none, none, MODEL_ID⟩ ⟨1, ⟨"cat.png", [], "image/png"⟩, none, none⟩ =
      (⟨1, ⟨"cat.png", [], "image/png"⟩, none, none⟩,
        ["Model not initialized. Call initializeModel() first."]) :=
  (ui_state_machine (.ok true) ⟨true, none⟩
      ⟨fun _ => ⟨1, 1, #[0, 0, 0, 0]⟩, fun _ _ _ => [0], true, fun _ _ _ => some []⟩
      ⟨none, none, MODEL_ID⟩ ⟨1, ⟨"cat.png", [], "image/png"⟩, none, none⟩).2.2
    "Model not initialized. Call initializeModel() first." rfl

/-- C8: the compositing step is deterministic: two runs over environments
that agree on canvas availability and on the (deterministic) PNG encoder
produce identical results, both artifacts with byte-identical content,
for the same source bitmap, pixel buffer, and filename. -/
theorem compositing_deterministic (e1 e2 : Env) (img : RawImg) (md : List Nat)
    (name : String) (hctx : e1.ctxAvailable = e2.ctxAvailable)
    (henc : e1.encode = e2.encode) :
    compositeStep e1 img md name = compositeStep e2 img md name := by
  simp only [compositeStep, hctx, henc]

theorem compositing_deterministic_witness :
    compositeStep
        ⟨fun _ => ⟨1, 1, #[0, 0, 0, 0]⟩, fun _ _ _ => [0], true, fun _ _ a => some a.toList⟩
        ⟨1, 1, #[10, 20, 30, 40]⟩ [7] "cat.png" =
      compositeStep
        ⟨fun _ => ⟨2, 2, #[]⟩, fun _ _ _ => [5], true, fun _ _ a => some a.toList⟩
        ⟨1, 1, #[10, 20, 30, 40]⟩ [7] "cat.png" :=
  compositing_deterministic
    ⟨fun _ => ⟨1, 1, #[0, 0, 0, 0]⟩, fun _ _ _ => [0], true, fun _ _ a => some a.toList⟩
    ⟨fun _ => ⟨2, 2, #[]⟩, fun _ _ _ => [5], true, fun _ _ a => some a.toList⟩
    ⟨1, 1, #[10, 20, 30, 40]⟩ [7] "cat.png" rfl rfl

/-- C10: when the change event carries no file, `handleImageUpload`
leaves the current record, mask and composite included, untouched; a
fresh record, with no mask and no composite, replaces it only when a file
is present. -/
theorem upload_requires_file (files : Option (List JsFile)) (now : Nat)
    (cur : Option ImageRecord) :
    ((files = none ∨ files = some []) → handleImageUpload files now cur = cur) ∧
    (∀ f rest, files = some (f :: rest) →
      handleImageUpload files now cur =
        some ⟨now, f, none, none⟩) := by
  constructor
  · intro h
    rcases h with h | h <;> subst h <;> rfl
  · intro f rest h
    subst h
    rfl

theorem upload_requires_file_witness :
    handleImageUpload none 5
        (some ⟨1, ⟨"cat.png", [], "image/png"⟩, some ⟨"cat-mask.png", [1], "image/png"⟩,
          some ⟨"cat-bg-blasted.png", [2], "image/png"⟩⟩) =
      some ⟨1, ⟨"cat.png", [], "image/png"⟩, some ⟨"cat-mask.png", [1], "image/png"⟩,
        some ⟨"cat-bg-blasted.png", [2], "image/png"⟩⟩ :=
  (upload_requires_file none 5 _).1 (Or.inl rfl)
